import Mathlib

/-!
Shallow embedding of the inventory/invoicing core of the pool-shop
application (`src/inventory/models.py`, `src/inventory/views.py`).

Django `Decimal` amounts are modelled as `ℚ` (decimal arithmetic at these
scales is exact), database integer columns as `Int`, `PositiveIntegerField`
as `Nat`, and the product table as a total function from product ids to
product rows.  A Django view that reports an error and redirects without
touching the database, and a `transaction.atomic` block that rolls back on
an exception, are both modelled as `Except`: an `.error` outcome carries no
new state, and the `run…` wrappers give the state the caller observes
(original state on error).
-/

namespace PoolShop

/-- One row of the `Product` table: the fields the core operations touch.
`quantity` is an `IntegerField` in the source, so it is an `Int` here. -/
structure Product where
  name : String
  quantity : Int
  deriving DecidableEq

/-- One row of the `StockHistory` ledger table. -/
structure StockEntry where
  productId : Nat
  transaction_type : String
  quantity : Int
  note : String
  created_by : String
  deriving DecidableEq

/-- One row of the `InvoiceItem` table.  `quantity` is a
`PositiveIntegerField`, hence a `Nat`. -/
structure InvoiceItem where
  productId : Nat
  quantity : Nat
  unit_price : ℚ
  deriving DecidableEq

/-- One row of the `Invoice` table, with its related item set inlined. -/
structure Invoice where
  invoice_number : String
  subtotal : ℚ
  tax_rate : ℚ
  tax_amount : ℚ
  total_amount : ℚ
  is_paid : Bool
  paid_at : Option Nat
  items : List InvoiceItem
  deriving DecidableEq

/-- Database state relevant to the stock claims: the product table and the
append-only stock ledger. -/
structure SysState where
  products : Nat → Product
  ledger : List StockEntry

/-- Saving one product row back into the table. -/
def updateProduct (f : Nat → Product) (i : Nat) (p : Product) : Nat → Product :=
  fun j => if j = i then p else f j

/-- `StockHistory.clean` (models.py 199-203): sign normalization, flipping
the magnitude when the caller-supplied sign does not match the kind. -/
def stockHistoryClean (e : StockEntry) : StockEntry :=
  if e.transaction_type = "OUT" ∧ 0 < e.quantity then
    { e with quantity := -e.quantity }
  else if (e.transaction_type = "IN" ∨ e.transaction_type = "ADJ") ∧ e.quantity < 0 then
    { e with quantity := |e.quantity| }
  else e

/-- `InvoiceItem.line_total` (models.py 164-166). -/
def line_total (it : InvoiceItem) : ℚ :=
  (it.quantity : ℚ) * it.unit_price

/-- Python `f"{n:04d}"`: decimal rendering zero-padded to a minimum width
of four characters (wider numbers are not truncated). -/
def pad4 (n : Nat) : String :=
  let s := toString n
  String.mk (List.replicate (4 - s.length) '0') ++ s

/-- The `Max` aggregate over a list of strings (lexicographic maximum),
`none` on an empty queryset. -/
def strMax? (l : List String) : Option String :=
  l.foldl
    (fun acc s =>
      match acc with
      | none => some s
      | some m => some (if m < s then s else m))
    none

/-- Python `s.startswith(p)`: the first `len(p)` characters of `s` are
exactly `p` (structurally recursive stand-in for `String.startsWith`). -/
def strStartsWith (s p : String) : Bool :=
  s.data.take p.data.length = p.data

/-- Python `s.split('-')` on the underlying character list. -/
def splitOnDash (l : List Char) : List (List Char) :=
  l.foldr
    (fun c acc =>
      if c = '-' then [] :: acc else (c :: acc.headD []) :: acc.tail)
    [[]]

/-- Decimal value of a digit string, as Python `int` computes it on the
all-digit suffixes the generator produces. -/
def charsToNat (l : List Char) : Nat :=
  l.foldl (fun a c => a * 10 + (c.toNat - 48)) 0

/-- `int(last.split('-')[-1])` on a digit-suffixed invoice number
(models.py 113). -/
def numericSuffix (s : String) : Nat :=
  charsToNat ((splitOnDash s.data).getLastD [])

/-- The last `-`-separated component of an invoice number, as a string. -/
def suffixString (s : String) : String :=
  String.mk ((splitOnDash s.data).getLastD [])

/-- The local `prefix` variable of models.py 109: `f"INV-{today}-"`. -/
def invPre (today : String) : String :=
  "INV-" ++ today ++ "-"

/-- `Invoice._generate_invoice_number` (models.py 107-116): take the
lexicographic maximum existing invoice number with today's prefix,
increment its numeric suffix (starting at 1 when none exists), and render
it zero-padded with `%04d`. -/
def generate_invoice_number (today : String) (existing : List String) : String :=
  match strMax? (existing.filter (fun s => strStartsWith s (invPre today))) with
  | none => invPre today ++ pad4 1
  | some last => invPre today ++ pad4 (numericSuffix last + 1)

/-- `Invoice.save` (models.py 85-106): assign an invoice number when absent,
then recompute `subtotal`, `tax_amount` and `total_amount` from the current
item set and persist them. -/
def invoiceSave (today : String) (existing : List String) (inv : Invoice) : Invoice :=
  let num :=
    if inv.invoice_number = "" then generate_invoice_number today existing
    else inv.invoice_number
  let sub := (inv.items.map line_total).sum
  let tax := sub * (inv.tax_rate / 100)
  { inv with
    invoice_number := num
    subtotal := sub
    tax_amount := tax
    total_amount := sub + tax }

/-- The per-item loop inside `Invoice.finalize_and_pay` (models.py 123-136):
check sufficiency against the product row as it stands when the item is
reached, decrement, and append an `OUT` ledger entry; raise `ValueError`
on the first insufficient item. -/
def finalizeItems (invoice_number : String) (user : String) :
    List InvoiceItem → SysState → Except String SysState
  | [], st => .ok st
  | it :: rest, st =>
    let p := st.products it.productId
    if p.quantity < (it.quantity : Int) then
      .error ("Insufficient stock: " ++ p.name)
    else
      finalizeItems invoice_number user rest
        { products := updateProduct st.products it.productId
            { p with quantity := p.quantity - (it.quantity : Int) }
          ledger := st.ledger ++
            [⟨it.productId, "OUT", -(it.quantity : Int),
              "Sold via " ++ invoice_number, user⟩] }

/-- `Invoice.finalize_and_pay` (models.py 118-140): early return when the
invoice is already paid; otherwise run the item loop inside
`transaction.atomic`, then mark the invoice paid with the current timestamp
and save it.  An `.error` result models the rolled-back transaction. -/
def finalize_and_pay (today : String) (existing : List String) (now : Nat)
    (paid_by_user : String) (inv : Invoice) (st : SysState) :
    Except String (Invoice × SysState) :=
  if inv.is_paid then .ok (inv, st)
  else
    match finalizeItems inv.invoice_number paid_by_user inv.items st with
    | .error e => .error e
    | .ok st2 =>
        .ok (invoiceSave today existing
              { inv with is_paid := true, paid_at := some now }, st2)

/-- The database state a caller of `finalize_and_pay` observes: on an
exception the atomic transaction rolls back, so the original invoice and
state survive. -/
def runFinalize (today : String) (existing : List String) (now : Nat)
    (paid_by_user : String) (inv : Invoice) (st : SysState) : Invoice × SysState :=
  match finalize_and_pay today existing now paid_by_user inv st with
  | .ok r => r
  | .error _ => (inv, st)

/-- The three `update_stock` actions (views.py 233-253). -/
inductive StockAction where
  | add
  | remove
  | set
  deriving DecidableEq

/-- `update_stock` (views.py 229-268): reject non-positive quantities; for
`remove` reject amounts above the current quantity; mutate the product and
append a ledger entry exactly when the transaction quantity is non-zero. -/
def update_stock (user : String) (productId : Nat) (action : StockAction)
    (qty : Int) (note : String) (st : SysState) : Except String SysState :=
  if qty ≤ 0 then .error "Quantity must be > 0"
  else
    let p := st.products productId
    match action with
    | .add =>
        .ok { products := updateProduct st.products productId
                { p with quantity := p.quantity + qty }
              ledger := st.ledger ++ [⟨productId, "IN", qty, note, user⟩] }
    | .remove =>
        if p.quantity < qty then
          .error ("Only " ++ toString p.quantity ++ " in stock")
        else
          .ok { products := updateProduct st.products productId
                  { p with quantity := p.quantity - qty }
                ledger := st.ledger ++ [⟨productId, "OUT", -qty, note, user⟩] }
    | .set =>
        .ok { products := updateProduct st.products productId
                { p with quantity := qty }
              ledger := st.ledger ++
                (if qty - p.quantity ≠ 0 then
                  [⟨productId, "ADJ", qty - p.quantity, note, user⟩]
                else []) }

/-- The state a caller of `update_stock` observes (original state when the
view reports an error and redirects without mutating anything). -/
def runStockUpdate (user : String) (productId : Nat) (action : StockAction)
    (qty : Int) (note : String) (st : SysState) : SysState :=
  match update_stock user productId action qty note st with
  | .ok st2 => st2
  | .error _ => st

/-- `add_product` (views.py 196-225): create the product row with its
initial quantity and record an `IN` "Initial stock" ledger entry exactly
when that quantity is non-zero (Python truthiness of `product.quantity`). -/
def add_product (user : String) (productId : Nat) (name : String) (q0 : Int)
    (st : SysState) : SysState :=
  { products := updateProduct st.products productId ⟨name, q0⟩
    ledger := st.ledger ++
      (if q0 ≠ 0 then [⟨productId, "IN", q0, "Initial stock", user⟩] else []) }

/-- The `delete_item` branch of `view_invoice` (views.py 454-463) followed
by the view's `invoice.save()`: refuse on a paid invoice, otherwise add the
item's quantity back onto the product, delete the item, and re-save the
invoice.  No ledger entry is written. -/
def delete_item (today : String) (existing : List String) (inv : Invoice)
    (idx : Nat) (st : SysState) : Except String (Invoice × SysState) :=
  match inv.items.get? idx with
  | none => .error "Not found"
  | some it =>
    if inv.is_paid then .error "Cannot edit paid invoice"
    else
      let p := st.products it.productId
      .ok (invoiceSave today existing { inv with items := inv.items.eraseIdx idx },
        { products := updateProduct st.products it.productId
            { p with quantity := p.quantity + (it.quantity : Int) }
          ledger := st.ledger })

/-- The stock-affecting operations of the system, as a single alphabet for
reasoning about arbitrary operation sequences.  Each carries the request
data the corresponding view or method receives. -/
inductive Op where
  | stockAdd (user : String) (productId : Nat) (qty : Int) (note : String)
  | stockRemove (user : String) (productId : Nat) (qty : Int) (note : String)
  | stockSet (user : String) (productId : Nat) (qty : Int) (note : String)
  | finalize (today : String) (existing : List String) (now : Nat)
      (user : String) (inv : Invoice)
  | removeItem (today : String) (existing : List String) (inv : Invoice) (idx : Nat)

/-- Observable effect of one operation on the database state: a failed
operation (error message / rolled-back transaction) leaves it unchanged. -/
def applyOp (st : SysState) : Op → SysState
  | .stockAdd u pid q note => runStockUpdate u pid .add q note st
  | .stockRemove u pid q note => runStockUpdate u pid .remove q note st
  | .stockSet u pid q note => runStockUpdate u pid .set q note st
  | .finalize today existing now u inv =>
      (runFinalize today existing now u inv st).2
  | .removeItem today existing inv idx =>
      match delete_item today existing inv idx st with
      | .ok r => r.2
      | .error _ => st

/-- A whole sequence of operations. -/
def applyOps (st : SysState) (ops : List Op) : SysState :=
  ops.foldl applyOp st

/-- Total quantity that a list of invoice items takes from one product. -/
def itemsTotalFor (items : List InvoiceItem) (pid : Nat) : Int :=
  (items.map fun it => if it.productId = pid then (it.quantity : Int) else 0).sum

/-- Sum of the ledger deltas recorded for one product. -/
def ledgerDeltaSum (l : List StockEntry) (pid : Nat) : Int :=
  (l.map fun e => if e.productId = pid then e.quantity else 0).sum

/-! ### Concrete instances used by witnesses and counterexamples -/

/-- A product table where every id maps to the same row. -/
def constProducts (name : String) (q : Int) : Nat → Product :=
  fun _ => ⟨name, q⟩

/-- A table of products named "Chlorine" with 10 units each, empty ledger. -/
def demoSt : SysState := ⟨constProducts "Chlorine" 10, []⟩

/-- A table of products named "Pump" with 5 units each, empty ledger. -/
def st5 : SysState := ⟨constProducts "Pump" 5, []⟩

/-- A draft invoice with two items on distinct products. -/
def demoInv : Invoice :=
  { invoice_number := "INV-20250101-0001"
    subtotal := 0
    tax_rate := 15
    tax_amount := 0
    total_amount := 0
    is_paid := false
    paid_at := none
    items := [⟨1, 2, 10⟩, ⟨2, 1, 5⟩] }

/-- The worked example of the spec: qty 2 at 10.00 and qty 1 at 5.00,
tax rate 15.00. -/
def exInv : Invoice := demoInv

/-- A draft invoice listing the same product twice, 3 units each time. -/
def dupInv : Invoice := { demoInv with items := [⟨1, 3, 10⟩, ⟨1, 3, 10⟩] }

/-- An invoice that is already paid. -/
def paidInv : Invoice := { demoInv with is_paid := true, paid_at := some 99 }

/-- A draft invoice demanding more stock than `demoSt` has. -/
def lowInv : Invoice := { demoInv with items := [⟨1, 20, 10⟩] }

/-- A freshly created product (id 1, initial quantity 10) as `add_product`
leaves the database. -/
def freshSt : SysState := add_product "u" 1 "Pump" 10 ⟨constProducts "" 0, []⟩

/-- A draft invoice holding one item of 2 units of product 1. -/
def draftInv : Invoice := { demoInv with items := [⟨1, 2, 50⟩] }

end PoolShop

namespace PoolShop

/-! ### Theorems -/

/-- C3: after any persist (save) of an invoice its stored `subtotal` is the
sum over its current line items of quantity × unit price, its `tax_amount`
is `subtotal * tax_rate / 100` in exact arithmetic, and its `total_amount`
is `subtotal + tax_amount`; on the worked example (qty 2 at 10.00, qty 1 at
5.00, tax rate 15.00) this gives 25.00, 3.75 and 28.75. -/
theorem totals_recomputed_on_save (today : String) (existing : List String)
    (inv : Invoice) :
    ((invoiceSave today existing inv).subtotal
        = (inv.items.map (fun it => (it.quantity : ℚ) * it.unit_price)).sum
      ∧ (invoiceSave today existing inv).tax_amount
        = (invoiceSave today existing inv).subtotal * inv.tax_rate / 100
      ∧ (invoiceSave today existing inv).total_amount
        = (invoiceSave today existing inv).subtotal
            + (invoiceSave today existing inv).tax_amount)
    ∧ (invoiceSave "20250101" [] exInv).subtotal = 25
    ∧ (invoiceSave "20250101" [] exInv).tax_amount = 3.75
    ∧ (invoiceSave "20250101" [] exInv).total_amount = 28.75 := by
  refine ⟨⟨?_, ?_, ?_⟩, ?_, ?_, ?_⟩
  · rfl
  · simp [invoiceSave, mul_div_assoc]
  · simp [invoiceSave]
  · simp [invoiceSave, exInv, demoInv, line_total]
    norm_num
  · simp [invoiceSave, exInv, demoInv, line_total]
    norm_num
  · simp [invoiceSave, exInv, demoInv, line_total]
    norm_num

/-- C4: `finalize_and_pay` on an already-paid invoice returns success,
leaves every product quantity and the ledger unchanged, and leaves the
invoice (including `paid_at` and its item set) unchanged. -/
theorem finalize_noop_when_paid (today : String) (existing : List String)
    (now : Nat) (user : String) (inv : Invoice) (st : SysState)
    (h : inv.is_paid = true) :
    finalize_and_pay today existing now user inv st = .ok (inv, st) := by
  simp [finalize_and_pay, h]

/-- Witness for C4 at a concrete paid invoice. -/
theorem finalize_noop_when_paid_witness :
    paidInv.is_paid = true
    ∧ finalize_and_pay "20250101" [] 7 "clerk" paidInv demoSt
        = .ok (paidInv, demoSt) :=
  ⟨rfl, finalize_noop_when_paid "20250101" [] 7 "clerk" paidInv demoSt rfl⟩

/-- C7: for 0 < n, removing n units succeeds when n is at most the current
quantity, leaving quantity q − n and appending exactly one `OUT` ledger
entry with delta −n; when n exceeds the current quantity the operation is
rejected with the insufficient-stock error, and the caller-visible state is
unchanged (quantity intact, no new ledger entry). -/
theorem remove_stock_spec (user : String) (pid : Nat) (n : Int) (note : String)
    (st : SysState) (hn : 0 < n) :
    (n ≤ (st.products pid).quantity →
      update_stock user pid .remove n note st = .ok
        { products := updateProduct st.products pid
            { st.products pid with quantity := (st.products pid).quantity - n }
          ledger := st.ledger ++ [⟨pid, "OUT", -n, note, user⟩] })
    ∧ ((st.products pid).quantity < n →
      update_stock user pid .remove n note st
          = .error ("Only " ++ toString (st.products pid).quantity ++ " in stock")
        ∧ runStockUpdate user pid .remove n note st = st) := by
  have h0 : ¬ n ≤ 0 := not_le.mpr hn
  constructor
  · intro hle
    simp [update_stock, h0, not_lt.mpr hle]
  · intro hlt
    constructor
    · simp [update_stock, h0, hlt]
    · simp [runStockUpdate, update_stock, h0, hlt]

/-- Witness for C7: removing 3 of 10 units succeeds with an `OUT −3` entry,
and removing 20 of 10 is rejected leaving the state untouched. -/
theorem remove_stock_spec_witness :
    (update_stock "u" 1 .remove 3 "sold" demoSt = .ok
      { products := updateProduct demoSt.products 1
          { demoSt.products 1 with quantity := (demoSt.products 1).quantity - 3 }
        ledger := demoSt.ledger ++ [⟨1, "OUT", -3, "sold", "u"⟩] })
    ∧ update_stock "u" 1 .remove 20 "sold" demoSt
        = .error ("Only " ++ toString (demoSt.products 1).quantity ++ " in stock")
    ∧ runStockUpdate "u" 1 .remove 20 "sold" demoSt = demoSt :=
  ⟨(remove_stock_spec "u" 1 3 "sold" demoSt (by decide)).1 (by decide),
   ((remove_stock_spec "u" 1 20 "sold" demoSt (by decide)).2 (by decide)).1,
   ((remove_stock_spec "u" 1 20 "sold" demoSt (by decide)).2 (by decide)).2⟩

/-- C8 counterexample: the claim says every n ≥ 0 is accepted by the Set
operation, but the code rejects n = 0 ("Quantity must be > 0") and leaves
the state unchanged. -/
theorem set_zero_rejected_counterexample :
    update_stock "u" 1 .set 0 "" st5 = .error "Quantity must be > 0"
    ∧ runStockUpdate "u" 1 .set 0 "" st5 = st5
    ∧ (st5.products 1).quantity = 5 :=
  ⟨rfl, rfl, rfl⟩

/-- C8 amended: for every n > 0 the Set operation is accepted, sets the
quantity to n and writes exactly one `ADJ` ledger entry with delta
n − previous quantity when that delta is non-zero, and no entry when the
delta is zero. -/
theorem set_stock_spec (user : String) (pid : Nat) (n : Int) (note : String)
    (st : SysState) (hn : 0 < n) :
    (n - (st.products pid).quantity ≠ 0 →
      update_stock user pid .set n note st = .ok
        { products := updateProduct st.products pid
            { st.products pid with quantity := n }
          ledger := st.ledger ++
            [⟨pid, "ADJ", n - (st.products pid).quantity, note, user⟩] })
    ∧ (n - (st.products pid).quantity = 0 →
      update_stock user pid .set n note st = .ok
        { products := updateProduct st.products pid
            { st.products pid with quantity := n }
          ledger := st.ledger }) := by
  have h0 : ¬ n ≤ 0 := not_le.mpr hn
  constructor <;> intro hd <;> simp [update_stock, h0, hd]

/-- Witness for C8's amended statement: setting a 5-unit product to 7 is
accepted and records an `ADJ` entry with delta 2. -/
theorem set_stock_spec_witness :
    update_stock "u" 1 .set 7 "stocktake" st5 = .ok
      { products := updateProduct st5.products 1
          { st5.products 1 with quantity := 7 }
        ledger := st5.ledger ++
          [⟨1, "ADJ", 7 - (st5.products 1).quantity, "stocktake", "u"⟩] } :=
  (set_stock_spec "u" 1 7 "stocktake" st5 (by decide)).1 (by decide)

/-- C10 counterexample: the application stores ledger entries through
`objects.create`, which never runs `StockHistory.clean`; lowering a 5-unit
product to 2 via Set stores an `ADJ` entry whose quantity is −3, so a
stored IN/ADJ entry can be negative, contrary to the claim. -/
theorem adj_entry_negative_counterexample :
    update_stock "u" 1 .set 2 "shrinkage" st5 = .ok
      { products := updateProduct st5.products 1
          { st5.products 1 with quantity := 2 }
        ledger := [⟨1, "ADJ", -3, "shrinkage", "u"⟩] }
    ∧ (⟨1, "ADJ", -3, "shrinkage", "u"⟩ : StockEntry).transaction_type = "ADJ"
    ∧ (⟨1, "ADJ", -3, "shrinkage", "u"⟩ : StockEntry).quantity < 0 := by
  refine ⟨?_, rfl, by decide⟩
  rfl

/-- C10 amended: entries that do pass through `StockHistory.clean` are sign
normalized — an OUT entry comes out non-positive and an IN/ADJ entry
non-negative, with the magnitude preserved (inverted rather than rejected)
and the kind untouched.  Entries created directly by the application bypass
`clean` and keep the caller-supplied sign. -/
theorem clean_sign_normalization (e : StockEntry) :
    (e.transaction_type = "OUT" → (stockHistoryClean e).quantity ≤ 0)
    ∧ (e.transaction_type = "IN" ∨ e.transaction_type = "ADJ" →
        0 ≤ (stockHistoryClean e).quantity)
    ∧ (stockHistoryClean e).quantity.natAbs = e.quantity.natAbs
    ∧ (stockHistoryClean e).transaction_type = e.transaction_type := by
  unfold stockHistoryClean
  split_ifs with h1 h2
  · refine ⟨fun _ => ?_, fun h => ?_, ?_, rfl⟩
    · show -e.quantity ≤ 0
      omega
    · rcases h with h | h <;> rw [h1.1] at h <;> exact absurd h (by decide)
    · show (-e.quantity).natAbs = e.quantity.natAbs
      exact Int.natAbs_neg e.quantity
  · refine ⟨fun h => ?_, fun _ => ?_, ?_, rfl⟩
    · rcases h2.1 with h' | h' <;> rw [h'] at h <;> exact absurd h (by decide)
    · show (0 : Int) ≤ |e.quantity|
      exact abs_nonneg e.quantity
    · show (|e.quantity|).natAbs = e.quantity.natAbs
      exact Int.natAbs_abs e.quantity
  · rw [not_and_or] at h1 h2
    refine ⟨fun h => ?_, fun h => ?_, rfl, rfl⟩
    · rcases h1 with h1 | h1
      · exact absurd h h1
      · omega
    · rcases h2 with h2 | h2
      · exact absurd h h2
      · omega

/-- `pad4` renders its argument zero-padded to a width of exactly
`max 4 (number of digits)` characters. -/
theorem pad4_length (n : Nat) : (pad4 n).length = max 4 (toString n).length := by
  unfold pad4
  rw [String.length_append, String.length_mk, List.length_replicate]
  omega

/-- C9 counterexample: with "INV-20250101-9999" already present, the
generator produces "INV-20250101-10000", whose numeric suffix has five
digits — it is not a 4-digit zero-padded suffix as the claim requires. -/
theorem invoice_number_width_counterexample :
    generate_invoice_number "20250101" ["INV-20250101-9999"] = "INV-20250101-10000"
    ∧ suffixString (generate_invoice_number "20250101" ["INV-20250101-9999"])
        = "10000"
    ∧ ("10000").length ≠ 4 := by
  refine ⟨by decide, by decide, by decide⟩

/-- C9 amended: every generated number is today's prefix followed by the
zero-padded successor counter — 1 when no invoice number with today's
prefix exists, otherwise the numeric suffix of the (lexicographically)
maximum existing number with that prefix plus one — where the counter is
zero-padded to a minimum of four digits (it grows beyond four once the
counter passes 9999). -/
theorem generated_number_structure (today : String) (existing : List String) :
    ∃ k, 0 < k
      ∧ generate_invoice_number today existing = invPre today ++ pad4 k
      ∧ 4 ≤ (pad4 k).length
      ∧ (strMax? (existing.filter fun s => strStartsWith s (invPre today)) = none
          → k = 1)
      ∧ (∀ m,
          strMax? (existing.filter fun s => strStartsWith s (invPre today)) = some m
          → k = numericSuffix m + 1) := by
  unfold generate_invoice_number
  cases h : strMax? (existing.filter fun s => strStartsWith s (invPre today))
  · refine ⟨1, Nat.one_pos, rfl, ?_, fun _ => rfl, fun m hm => Option.noConfusion hm⟩
    rw [pad4_length]
    omega
  · next m =>
    refine ⟨numericSuffix m + 1, Nat.succ_pos _, rfl, ?_,
      fun hn => Option.noConfusion hn, fun m' hm' => ?_⟩
    · rw [pad4_length]
      omega
    · injection hm' with hm'
      rw [hm']

/-! ### Supporting lemmas about the finalize loop -/

theorem updateProduct_eq (f : Nat → Product) (i : Nat) (p : Product) :
    updateProduct f i p i = p := by
  simp [updateProduct]

theorem updateProduct_ne (f : Nat → Product) (i j : Nat) (p : Product)
    (h : j ≠ i) : updateProduct f i p j = f j := by
  simp [updateProduct, h]

theorem itemsTotalFor_nil (pid : Nat) : itemsTotalFor [] pid = 0 := rfl

theorem itemsTotalFor_cons (it : InvoiceItem) (rest : List InvoiceItem)
    (pid : Nat) :
    itemsTotalFor (it :: rest) pid
      = (if it.productId = pid then (it.quantity : Int) else 0)
          + itemsTotalFor rest pid := by
  simp [itemsTotalFor]

theorem itemsTotalFor_nonneg (items : List InvoiceItem) (pid : Nat) :
    0 ≤ itemsTotalFor items pid := by
  induction items with
  | nil => simp [itemsTotalFor]
  | cons it rest ih =>
    rw [itemsTotalFor_cons]
    have hit : (0:Int) ≤ if it.productId = pid then (it.quantity : Int) else 0 := by
      split
      · exact Int.natCast_nonneg _
      · exact le_refl 0
    omega

/-- The database state after one successful iteration of the finalize loop
over item `it`. -/
def stepState (num user : String) (it : InvoiceItem) (st : SysState) : SysState :=
  { products := updateProduct st.products it.productId
      { st.products it.productId with
        quantity := (st.products it.productId).quantity - (it.quantity : Int) }
    ledger := st.ledger ++
      [⟨it.productId, "OUT", -(it.quantity : Int), "Sold via " ++ num, user⟩] }

theorem stepState_quantity (num user : String) (it : InvoiceItem)
    (st : SysState) (pid : Nat) :
    ((stepState num user it st).products pid).quantity
      = (st.products pid).quantity
          - (if it.productId = pid then (it.quantity : Int) else 0) := by
  by_cases hpid : pid = it.productId
  · rw [hpid]
    simp [stepState, updateProduct_eq]
  · simp [stepState, updateProduct_ne _ _ _ _ hpid, Ne.symm hpid]

theorem stepState_name (num user : String) (it : InvoiceItem)
    (st : SysState) (pid : Nat) :
    ((stepState num user it st).products pid).name = (st.products pid).name := by
  by_cases hpid : pid = it.productId
  · rw [hpid]
    simp [stepState, updateProduct_eq]
  · simp [stepState, updateProduct_ne _ _ _ _ hpid]

theorem stepState_ledger (num user : String) (it : InvoiceItem) (st : SysState) :
    (stepState num user it st).ledger
      = st.ledger ++
          [⟨it.productId, "OUT", -(it.quantity : Int), "Sold via " ++ num, user⟩] :=
  rfl

theorem finalizeItems_cons_of_insufficient (num user : String) (it : InvoiceItem)
    (rest : List InvoiceItem) (st : SysState)
    (h : (st.products it.productId).quantity < (it.quantity : Int)) :
    finalizeItems num user (it :: rest) st
      = .error ("Insufficient stock: " ++ (st.products it.productId).name) := by
  simp [finalizeItems, h]

theorem finalizeItems_cons_of_sufficient (num user : String) (it : InvoiceItem)
    (rest : List InvoiceItem) (st : SysState)
    (h : ¬ (st.products it.productId).quantity < (it.quantity : Int)) :
    finalizeItems num user (it :: rest) st
      = finalizeItems num user rest (stepState num user it st) := by
  simp [finalizeItems, stepState, h]

/-- When the per-product demand of the remaining items fits into current
stock, the finalize loop succeeds, decrements each product by its total
demand, keeps every product name, and appends exactly one OUT entry per
item, in item order. -/
theorem finalizeItems_ok (num user : String) :
    ∀ (items : List InvoiceItem) (st : SysState),
      (∀ pid, itemsTotalFor items pid ≤ (st.products pid).quantity) →
      ∃ st2, finalizeItems num user items st = .ok st2
        ∧ (∀ pid, (st2.products pid).quantity
              = (st.products pid).quantity - itemsTotalFor items pid
            ∧ (st2.products pid).name = (st.products pid).name)
        ∧ st2.ledger = st.ledger ++ items.map (fun it =>
            ⟨it.productId, "OUT", -(it.quantity : Int),
              "Sold via " ++ num, user⟩) := by
  intro items
  induction items with
  | nil =>
    intro st _
    exact ⟨st, rfl, fun pid => ⟨by rw [itemsTotalFor_nil]; omega, rfl⟩, by simp⟩
  | cons it rest ih =>
    intro st h
    have hrest := itemsTotalFor_nonneg rest it.productId
    have hhead := h it.productId
    rw [itemsTotalFor_cons, if_pos rfl] at hhead
    have hq : ¬ (st.products it.productId).quantity < (it.quantity : Int) := by
      omega
    have hsuff' : ∀ pid,
        itemsTotalFor rest pid ≤ ((stepState num user it st).products pid).quantity := by
      intro pid
      rw [stepState_quantity]
      have h1 := h pid
      rw [itemsTotalFor_cons] at h1
      omega
    rcases ih (stepState num user it st) hsuff' with ⟨st2, hok, hq2, hl2⟩
    refine ⟨st2, ?_, ?_, ?_⟩
    · rw [finalizeItems_cons_of_sufficient num user it rest st hq]
      exact hok
    · intro pid
      have hq2a := (hq2 pid).1
      have hq2b := (hq2 pid).2
      rw [stepState_quantity] at hq2a
      rw [stepState_name] at hq2b
      refine ⟨?_, hq2b⟩
      rw [hq2a, itemsTotalFor_cons]
      omega
    · rw [hl2, stepState_ledger]
      simp

/-- If some item of the list demands more than the current stock of its
product, the finalize loop raises the insufficient-stock error, naming a
product referenced by the list (quantities only shrink as the loop runs, so
an initially insufficient item can only fail sooner). -/
theorem finalizeItems_error_of_insufficient (num user : String) :
    ∀ (items : List InvoiceItem) (st : SysState),
      (∃ it ∈ items, (st.products it.productId).quantity < (it.quantity : Int)) →
      ∃ bad ∈ items,
        finalizeItems num user items st
          = .error ("Insufficient stock: " ++ (st.products bad.productId).name) := by
  intro items
  induction items with
  | nil =>
    intro st h
    rcases h with ⟨it, hmem, _⟩
    exact absurd hmem (List.not_mem_nil it)
  | cons it rest ih =>
    intro st h
    by_cases hq : (st.products it.productId).quantity < (it.quantity : Int)
    · exact ⟨it, List.mem_cons_self it rest,
        finalizeItems_cons_of_insufficient num user it rest st hq⟩
    · rcases h with ⟨w, hw, hwlt⟩
      have hwrest : w ∈ rest := by
        rcases List.mem_cons.mp hw with h1 | h1
        · subst h1
          exact absurd hwlt hq
        · exact h1
      have hlt' :
          ((stepState num user it st).products w.productId).quantity
            < (w.quantity : Int) := by
        rw [stepState_quantity]
        have hnn : (0:Int) ≤
            if it.productId = w.productId then (it.quantity : Int) else 0 := by
          split
          · exact Int.natCast_nonneg _
          · exact le_refl 0
        omega
      rcases ih (stepState num user it st) ⟨w, hwrest, hlt'⟩ with ⟨bad, hbad, herr⟩
      rw [stepState_name] at herr
      refine ⟨bad, List.mem_cons_of_mem it hbad, ?_⟩
      rw [finalizeItems_cons_of_sufficient num user it rest st hq]
      exact herr

/-- C1: on a draft invoice holding an item whose product cannot cover it,
`finalize_and_pay` fails with the insufficient-stock error naming the
offending product, and the transaction rollback leaves the caller-visible
invoice and database state (product quantities, ledger, paid flag) exactly
as before. -/
theorem finalize_insufficient_rolls_back (today : String) (existing : List String)
    (now : Nat) (user : String) (inv : Invoice) (st : SysState)
    (hpaid : inv.is_paid = false)
    (hins : ∃ it ∈ inv.items,
      (st.products it.productId).quantity < (it.quantity : Int)) :
    ∃ bad ∈ inv.items,
      finalize_and_pay today existing now user inv st
          = .error ("Insufficient stock: " ++ (st.products bad.productId).name)
        ∧ runFinalize today existing now user inv st = (inv, st) := by
  rcases finalizeItems_error_of_insufficient inv.invoice_number user inv.items st hins
    with ⟨bad, hmem, herr⟩
  have hfp : finalize_and_pay today existing now user inv st
      = .error ("Insufficient stock: " ++ (st.products bad.productId).name) := by
    simp [finalize_and_pay, hpaid, herr]
  exact ⟨bad, hmem, hfp, by simp [runFinalize, hfp]⟩

/-- Witness for C1: an invoice demanding 20 units of a 10-unit product. -/
theorem finalize_insufficient_rolls_back_witness :
    lowInv.is_paid = false
    ∧ (∃ it ∈ lowInv.items,
        (demoSt.products it.productId).quantity < (it.quantity : Int))
    ∧ ∃ bad ∈ lowInv.items,
        finalize_and_pay "20250101" [] 5 "u" lowInv demoSt
            = .error ("Insufficient stock: " ++ (demoSt.products bad.productId).name)
          ∧ runFinalize "20250101" [] 5 "u" lowInv demoSt = (lowInv, demoSt) :=
  ⟨rfl,
   ⟨⟨1, 20, 10⟩, by simp [lowInv, demoInv], by decide⟩,
   finalize_insufficient_rolls_back "20250101" [] 5 "u" lowInv demoSt rfl
     ⟨⟨1, 20, 10⟩, by simp [lowInv, demoInv], by decide⟩⟩

/-- C2 counterexample: the claim's hypothesis only compares each item with
its product's current quantity.  An invoice listing the same 5-unit product
twice with 3 units each satisfies that hypothesis, yet `finalize_and_pay`
fails: the second item is checked after the first decrement. -/
theorem duplicate_product_counterexample :
    dupInv.is_paid = false
    ∧ dupInv.items = [⟨1, 3, 10⟩, ⟨1, 3, 10⟩]
    ∧ ((3 : Nat) : Int) ≤ (st5.products 1).quantity
    ∧ finalize_and_pay "20250101" [] 5 "u" dupInv st5
        = .error "Insufficient stock: Pump" := by
  refine ⟨rfl, rfl, by decide, ?_⟩
  rfl

/-- C2 amended: on a draft invoice whose products can each cover the total
demand of the line items referencing them (which is the per-item condition
whenever the products are pairwise distinct), `finalize_and_pay` succeeds,
decrements every product by its items' total, appends exactly one OUT
ledger entry per item with the negated item quantity, annotated with the
invoice number and acting user, and marks the invoice paid at the current
timestamp with its item set intact. -/
theorem finalize_success (today : String) (existing : List String) (now : Nat)
    (user : String) (inv : Invoice) (st : SysState)
    (hpaid : inv.is_paid = false)
    (hsuff : ∀ pid, itemsTotalFor inv.items pid ≤ (st.products pid).quantity) :
    ∃ inv2 st2,
      finalize_and_pay today existing now user inv st = .ok (inv2, st2)
      ∧ (∀ pid, (st2.products pid).quantity
            = (st.products pid).quantity - itemsTotalFor inv.items pid)
      ∧ (∀ pid, (st2.products pid).name = (st.products pid).name)
      ∧ st2.ledger = st.ledger ++ inv.items.map (fun it =>
          ⟨it.productId, "OUT", -(it.quantity : Int),
            "Sold via " ++ inv.invoice_number, user⟩)
      ∧ inv2.is_paid = true
      ∧ inv2.paid_at = some now
      ∧ inv2.items = inv.items := by
  rcases finalizeItems_ok inv.invoice_number user inv.items st hsuff
    with ⟨st2, hok, hq, hl⟩
  refine ⟨invoiceSave today existing { inv with is_paid := true, paid_at := some now },
    st2, ?_, fun pid => (hq pid).1, fun pid => (hq pid).2, hl, ?_, ?_, ?_⟩
  · simp [finalize_and_pay, hpaid, hok]
  · simp [invoiceSave]
  · simp [invoiceSave]
  · simp [invoiceSave]

/-- Witness for C2's amended statement: the two-item demo invoice against a
10-unit stock. -/
theorem finalize_success_witness :
    demoInv.is_paid = false
    ∧ (∀ pid, itemsTotalFor demoInv.items pid ≤ (demoSt.products pid).quantity)
    ∧ ∃ inv2 st2,
        finalize_and_pay "20250101" [] 5 "u" demoInv demoSt = .ok (inv2, st2)
        ∧ (∀ pid, (st2.products pid).quantity
              = (demoSt.products pid).quantity - itemsTotalFor demoInv.items pid)
        ∧ (∀ pid, (st2.products pid).name = (demoSt.products pid).name)
        ∧ st2.ledger = demoSt.ledger ++ demoInv.items.map (fun it =>
            ⟨it.productId, "OUT", -(it.quantity : Int),
              "Sold via " ++ demoInv.invoice_number, "u"⟩)
        ∧ inv2.is_paid = true
        ∧ inv2.paid_at = some 5
        ∧ inv2.items = demoInv.items := by
  have hsuff : ∀ pid, itemsTotalFor demoInv.items pid ≤ (demoSt.products pid).quantity := by
    intro pid
    show itemsTotalFor demoInv.items pid ≤ 10
    simp only [demoInv, itemsTotalFor, List.map_cons, List.map_nil, List.sum_cons,
      List.sum_nil]
    split_ifs <;> norm_num
  exact ⟨rfl, hsuff, finalize_success "20250101" [] 5 "u" demoInv demoSt rfl hsuff⟩

/-- A successful run of the finalize loop keeps a non-negative product
quantity non-negative: each decrement is guarded by the sufficiency check. -/
theorem finalizeItems_preserves_nonneg (num user : String) :
    ∀ (items : List InvoiceItem) (st st2 : SysState) (pid : Nat),
      finalizeItems num user items st = .ok st2 →
      0 ≤ (st.products pid).quantity →
      0 ≤ (st2.products pid).quantity := by
  intro items
  induction items with
  | nil =>
    intro st st2 pid h hpos
    injection h with h
    rw [← h]
    exact hpos
  | cons it rest ih =>
    intro st st2 pid h hpos
    by_cases hq : (st.products it.productId).quantity < (it.quantity : Int)
    · rw [finalizeItems_cons_of_insufficient num user it rest st hq] at h
      exact absurd h (by simp)
    · rw [finalizeItems_cons_of_sufficient num user it rest st hq] at h
      apply ih (stepState num user it st) st2 pid h
      rw [stepState_quantity]
      by_cases hpid : it.productId = pid
      · rw [if_pos hpid]
        rw [hpid] at hq
        omega
      · rw [if_neg hpid]
        omega

/-- Every single operation of the system keeps a non-negative product
quantity non-negative (failed operations leave the state untouched). -/
theorem applyOp_preserves_nonneg (st : SysState) (op : Op) (pid : Nat)
    (hpos : 0 ≤ (st.products pid).quantity) :
    0 ≤ ((applyOp st op).products pid).quantity := by
  cases op with
  | stockAdd u pid0 q note =>
    simp only [applyOp, runStockUpdate, update_stock]
    by_cases h0 : q ≤ 0
    · simp only [if_pos h0]
      exact hpos
    · simp only [if_neg h0]
      by_cases hpid : pid = pid0
      · rw [hpid]
        rw [hpid] at hpos
        simp only [updateProduct_eq]
        omega
      · simp only [updateProduct_ne _ _ _ _ hpid]
        exact hpos
  | stockRemove u pid0 q note =>
    simp only [applyOp, runStockUpdate, update_stock]
    by_cases h0 : q ≤ 0
    · simp only [if_pos h0]
      exact hpos
    · simp only [if_neg h0]
      by_cases hlow : (st.products pid0).quantity < q
      · simp only [if_pos hlow]
        exact hpos
      · simp only [if_neg hlow]
        by_cases hpid : pid = pid0
        · rw [hpid]
          simp only [updateProduct_eq]
          omega
        · simp only [updateProduct_ne _ _ _ _ hpid]
          exact hpos
  | stockSet u pid0 q note =>
    simp only [applyOp, runStockUpdate, update_stock]
    by_cases h0 : q ≤ 0
    · simp only [if_pos h0]
      exact hpos
    · simp only [if_neg h0]
      by_cases hpid : pid = pid0
      · rw [hpid]
        simp only [updateProduct_eq]
        omega
      · simp only [updateProduct_ne _ _ _ _ hpid]
        exact hpos
  | finalize today existing now u inv =>
    show 0 ≤ (((runFinalize today existing now u inv st).2).products pid).quantity
    unfold runFinalize
    cases hfp : finalize_and_pay today existing now u inv st with
    | error e => exact hpos
    | ok r =>
      unfold finalize_and_pay at hfp
      by_cases hp : inv.is_paid
      · rw [if_pos hp] at hfp
        injection hfp with hfp
        rw [← hfp]
        exact hpos
      · rw [if_neg hp] at hfp
        cases hfi : finalizeItems inv.invoice_number u inv.items st with
        | error e =>
          rw [hfi] at hfp
          exact absurd hfp (by simp)
        | ok st2 =>
          rw [hfi] at hfp
          injection hfp with hfp
          rw [← hfp]
          exact finalizeItems_preserves_nonneg _ _ _ _ _ _ hfi hpos
  | removeItem today existing inv idx =>
    simp only [applyOp]
    cases hdel : delete_item today existing inv idx st with
    | error e => exact hpos
    | ok r =>
      cases hget : inv.items.get? idx with
      | none =>
        simp only [delete_item, hget] at hdel
        exact absurd hdel (by simp)
      | some it =>
        simp only [delete_item, hget] at hdel
        by_cases hp : inv.is_paid
        · rw [if_pos hp] at hdel
          exact absurd hdel (by simp)
        · rw [if_neg hp] at hdel
          injection hdel with hdel
          rw [← hdel]
          by_cases hpid : pid = it.productId
          · rw [hpid]
            rw [hpid] at hpos
            simp only [updateProduct_eq]
            have h2 : (0:Int) ≤ (it.quantity : Int) := Int.natCast_nonneg _
            omega
          · simp only [updateProduct_ne _ _ _ _ hpid]
            exact hpos

/-- C5: a product whose quantity is non-negative can never be driven
negative by any sequence of stock add / remove / set, invoice finalization
or item removal operations — each operation either preserves
non-negativity or is rejected without a state change. -/
theorem quantities_never_negative (ops : List Op) (st : SysState) (pid : Nat)
    (h : 0 ≤ (st.products pid).quantity) :
    0 ≤ ((applyOps st ops).products pid).quantity := by
  induction ops generalizing st with
  | nil => exact h
  | cons op rest ih =>
    exact ih (applyOp st op) (applyOp_preserves_nonneg st op pid h)

/-- Witness for C5: a remove, a finalize and a set applied to a 10-unit
product leave its quantity non-negative. -/
theorem quantities_never_negative_witness :
    0 ≤ (demoSt.products 1).quantity
    ∧ 0 ≤ ((applyOps demoSt
        [Op.stockRemove "u" 1 4 "damaged", Op.finalize "20250101" [] 5 "u" demoInv,
         Op.stockSet "u" 2 3 "recount"]).products 1).quantity :=
  ⟨by decide,
   quantities_never_negative
     [Op.stockRemove "u" 1 4 "damaged", Op.finalize "20250101" [] 5 "u" demoInv,
      Op.stockSet "u" 2 3 "recount"] demoSt 1 (by decide)⟩

/-- C6: evaluating the code at the failing input.  A product is created
with initial quantity 10 (one IN ledger entry of 10); removing a 2-unit
item from a draft invoice then raises the quantity to 12 while writing no
ledger entry, so the quantity no longer reconciles with q0 plus the ledger
deltas recorded by the operations (nor with q0 plus all recorded deltas). -/
theorem item_removal_breaks_reconciliation :
    (freshSt.products 1).quantity = 10
    ∧ ledgerDeltaSum freshSt.ledger 1 = 10
    ∧ ((applyOps freshSt [Op.removeItem "20250101" [] draftInv 0]).products 1).quantity
        = 12
    ∧ (applyOps freshSt [Op.removeItem "20250101" [] draftInv 0]).ledger
        = freshSt.ledger
    ∧ ((applyOps freshSt [Op.removeItem "20250101" [] draftInv 0]).products 1).quantity
        ≠ 10 + (ledgerDeltaSum
              (applyOps freshSt [Op.removeItem "20250101" [] draftInv 0]).ledger 1
            - ledgerDeltaSum freshSt.ledger 1)
    ∧ ((applyOps freshSt [Op.removeItem "20250101" [] draftInv 0]).products 1).quantity
        ≠ 10 + ledgerDeltaSum
            (applyOps freshSt [Op.removeItem "20250101" [] draftInv 0]).ledger 1 := by
  refine ⟨rfl, rfl, rfl, rfl, by decide, by decide⟩

/-- Witness for C10's amended statement: a wrong-signed OUT entry comes out
non-positive and a wrong-signed ADJ entry comes out non-negative. -/
theorem clean_sign_normalization_witness :
    (stockHistoryClean ⟨1, "OUT", 5, "", "u"⟩).quantity ≤ 0
    ∧ 0 ≤ (stockHistoryClean ⟨2, "ADJ", -4, "", "u"⟩).quantity :=
  ⟨(clean_sign_normalization ⟨1, "OUT", 5, "", "u"⟩).1 rfl,
   (clean_sign_normalization ⟨2, "ADJ", -4, "", "u"⟩).2.1 (Or.inr rfl)⟩

end PoolShop
